import Mathlib

/-!
Verification development for the 3DSimulate viewer frontend.

The definitions below are shallow embeddings of the TypeScript source:

* geometry utilities from frontend/src/lib/utils.ts
  (calculateDistance, calculateAngle via THREE.Vector3.angleTo);
* the model loading effect and post-processing from
  frontend/src/components/3d/ModelLoader.tsx (loadModel, processModel);
* the measurement click handler from
  frontend/src/components/3d/MeasurementTools.tsx (handleClick);
* the state updates of AnnotationTools.tsx
  (deleteAnnotation, toggleAnnotationVisibility);
* the task polling step of App.tsx (pollTaskStatus) and the restart
  update of useReconstruction (restartTask).

Real numbers stand for JS numbers in the geometry code; rationals are
used for the bounding-box computation so that concrete runs evaluate.
-/

/-! ## Geometry utilities (frontend/src/lib/utils.ts) -/

/-- World points, as the three components of a THREE.Vector3. -/
abbrev Vec3 : Type := ℝ × ℝ × ℝ

/-- Componentwise difference of two vectors, as in
point1.clone().sub(point2) in calculateAngle. -/
def subV (p q : Vec3) : Vec3 :=
  (p.1 - q.1, p.2.1 - q.2.1, p.2.2 - q.2.2)

/-- Dot product, THREE.Vector3.dot. -/
def dotV (p q : Vec3) : ℝ :=
  p.1 * q.1 + p.2.1 * q.2.1 + p.2.2 * q.2.2

/-- Squared length, THREE.Vector3.lengthSq. -/
def lengthSq (p : Vec3) : ℝ :=
  dotV p p

/-- THREE.MathUtils.clamp value min max, which is
Math.max value min (Math.min max value) in source order. -/
def clampR (value lo hi : ℝ) : ℝ :=
  max lo (min hi value)

/-- Euclidean distance between two points, from calculateDistance of
lib/utils.ts: dx*dx + dy*dy + dz*dz under a square root.
THREE.Vector3.distanceTo computes the same value. -/
noncomputable def calculateDistance (point1 point2 : Vec3) : ℝ :=
  let dx := point2.1 - point1.1
  let dy := point2.2.1 - point1.2.1
  let dz := point2.2.2 - point1.2.2
  Real.sqrt (dx * dx + dy * dy + dz * dz)

/-- THREE.Vector3.angleTo: the denominator is the square root of the
product of the squared lengths; when it is zero the result is pi over
two, otherwise the arccosine of the clamped normalized dot product. -/
noncomputable def angleTo (v w : Vec3) : ℝ :=
  let den := Real.sqrt (lengthSq v * lengthSq w)
  if den = 0 then Real.pi / 2
  else Real.arccos (clampR (dotV v w / den) (-1) 1)

/-- Angle in degrees at the middle (vertex) point, from calculateAngle
of lib/utils.ts: the two vectors run from the vertex to the outer
points and the radian angle is scaled by 180 over pi. -/
noncomputable def calculateAngle (point1 vertex point2 : Vec3) : ℝ :=
  let v1 := subV point1 vertex
  let v2 := subV point2 vertex
  angleTo v1 v2 * (180 / Real.pi)

/-- Interpretation of a vector as a point of the Euclidean space used
by Mathlib, for relating the source formulas to standard geometry. -/
def toE (p : Vec3) : EuclideanSpace ℝ (Fin 3) :=
  ![p.1, p.2.1, p.2.2]

lemma lengthSq_nonneg (p : Vec3) : 0 ≤ lengthSq p := by
  unfold lengthSq dotV
  have h1 := mul_self_nonneg p.1
  have h2 := mul_self_nonneg p.2.1
  have h3 := mul_self_nonneg p.2.2
  linarith

lemma inner_toE (p q : Vec3) : (inner (toE p) (toE q) : ℝ) = dotV p q := by
  simp [toE, dotV, PiLp.inner_apply, RCLike.inner_apply, starRingEnd_apply,
    Fin.sum_univ_three, mul_comm]

lemma norm_toE (p : Vec3) : ‖toE p‖ = Real.sqrt (lengthSq p) := by
  rw [EuclideanSpace.norm_eq]
  congr 1
  simp [toE, lengthSq, dotV, Fin.sum_univ_three, sq_abs]
  ring

/-- C7: the derived value of a distance measurement is the Euclidean
distance of the two captured points, and on (0,0,0), (3,4,0) it is 5. -/
theorem calculateDistance_euclidean :
    (∀ p q : Vec3, calculateDistance p q = dist (toE p) (toE q)) ∧
    calculateDistance (0, 0, 0) (3, 4, 0) = 5 := by
  constructor
  · intro p q
    rw [EuclideanSpace.dist_eq]
    unfold calculateDistance
    simp [toE, Fin.sum_univ_three, Real.dist_eq, sq_abs]
    ring_nf
  · have h : calculateDistance (0, 0, 0) (3, 4, 0) = Real.sqrt 25 := by
      norm_num [calculateDistance]
    rw [h, show (25 : ℝ) = 5 ^ 2 by norm_num,
      Real.sqrt_sq (by norm_num : (0 : ℝ) ≤ 5)]

lemma angleTo_mem_Icc (v w : Vec3) : 0 ≤ angleTo v w ∧ angleTo v w ≤ Real.pi := by
  have hpi := Real.pi_pos
  simp only [angleTo]
  split_ifs
  · constructor <;> linarith
  · exact ⟨Real.arccos_nonneg _, Real.arccos_le_pi _⟩

/-- C8: the derived value of an angle measurement lies in [0, 180]
degrees; in the nondegenerate case it equals the Mathlib angle between
the two vectors from the vertex, converted to degrees; and on the
points (1,0,0), vertex (0,0,0), (0,1,0) it is 90. -/
theorem calculateAngle_spec :
    (∀ p1 v p2 : Vec3, 0 ≤ calculateAngle p1 v p2 ∧ calculateAngle p1 v p2 ≤ 180) ∧
    (∀ p1 v p2 : Vec3, lengthSq (subV p1 v) ≠ 0 → lengthSq (subV p2 v) ≠ 0 →
      calculateAngle p1 v p2 =
        InnerProductGeometry.angle (toE (subV p1 v)) (toE (subV p2 v)) * (180 / Real.pi)) ∧
    calculateAngle (1, 0, 0) (0, 0, 0) (0, 1, 0) = 90 := by
  have hpi := Real.pi_pos
  refine ⟨?_, ?_, ?_⟩
  · intro p1 v p2
    obtain ⟨h0, hp⟩ := angleTo_mem_Icc (subV p1 v) (subV p2 v)
    unfold calculateAngle
    constructor
    · exact mul_nonneg h0 (by positivity)
    · calc angleTo (subV p1 v) (subV p2 v) * (180 / Real.pi)
          ≤ Real.pi * (180 / Real.pi) := by
            apply mul_le_mul_of_nonneg_right hp
            positivity
        _ = 180 := by field_simp
  · intro p1 v p2 h1 h2
    have hLx : 0 < lengthSq (subV p1 v) :=
      lt_of_le_of_ne (lengthSq_nonneg _) (Ne.symm h1)
    have hLy : 0 < lengthSq (subV p2 v) :=
      lt_of_le_of_ne (lengthSq_nonneg _) (Ne.symm h2)
    have hsx : 0 < Real.sqrt (lengthSq (subV p1 v)) := Real.sqrt_pos.mpr hLx
    have hsy : 0 < Real.sqrt (lengthSq (subV p2 v)) := Real.sqrt_pos.mpr hLy
    have hden : Real.sqrt (lengthSq (subV p1 v) * lengthSq (subV p2 v)) =
        Real.sqrt (lengthSq (subV p1 v)) * Real.sqrt (lengthSq (subV p2 v)) :=
      Real.sqrt_mul (lengthSq_nonneg _) _
    have hdpos : 0 < Real.sqrt (lengthSq (subV p1 v) * lengthSq (subV p2 v)) := by
      rw [hden]; exact mul_pos hsx hsy
    have habs : |dotV (subV p1 v) (subV p2 v)| ≤
        Real.sqrt (lengthSq (subV p1 v) * lengthSq (subV p2 v)) := by
      have h := abs_real_inner_le_norm (toE (subV p1 v)) (toE (subV p2 v))
      rw [inner_toE, norm_toE, norm_toE] at h
      rw [hden]; exact h
    have hratio : |dotV (subV p1 v) (subV p2 v) /
        Real.sqrt (lengthSq (subV p1 v) * lengthSq (subV p2 v))| ≤ 1 := by
      rw [abs_div, abs_of_pos hdpos]
      exact (div_le_one hdpos).mpr habs
    obtain ⟨hlo, hhi⟩ := abs_le.mp hratio
    simp only [calculateAngle, angleTo]
    rw [if_neg hdpos.ne']
    congr 1
    unfold InnerProductGeometry.angle
    rw [inner_toE, norm_toE, norm_toE, ← hden]
    congr 1
    unfold clampR
    rw [min_eq_right hhi, max_eq_right hlo]
  · have hx : lengthSq (subV (1, 0, 0) (0, 0, 0)) = 1 := by
      norm_num [subV, lengthSq, dotV]
    have hy : lengthSq (subV (0, 1, 0) (0, 0, 0)) = 1 := by
      norm_num [subV, lengthSq, dotV]
    have hdot : dotV (subV (1, 0, 0) (0, 0, 0)) (subV (0, 1, 0) (0, 0, 0)) = 0 := by
      norm_num [subV, dotV]
    simp only [calculateAngle, angleTo]
    rw [hx, hy, hdot]
    rw [if_neg (by rw [mul_one, Real.sqrt_one]; norm_num)]
    rw [mul_one, Real.sqrt_one]
    norm_num [clampR]
    field_simp
    ring

/-- Witness for calculateAngle_spec at concrete nondegenerate inputs. -/
theorem calculateAngle_spec_witness :
    lengthSq (subV (1, 0, 0) (0, 0, 0)) ≠ 0 ∧
    lengthSq (subV (0, 1, 0) (0, 0, 0)) ≠ 0 ∧
    calculateAngle (1, 0, 0) (0, 0, 0) (0, 1, 0) =
      InnerProductGeometry.angle (toE (subV (1, 0, 0) (0, 0, 0)))
        (toE (subV (0, 1, 0) (0, 0, 0))) * (180 / Real.pi) ∧
    calculateAngle (1, 0, 0) (0, 0, 0) (0, 1, 0) = 90 :=
  ⟨by norm_num [subV, lengthSq, dotV],
   by norm_num [subV, lengthSq, dotV],
   calculateAngle_spec.2.1 (1, 0, 0) (0, 0, 0) (0, 1, 0)
     (by norm_num [subV, lengthSq, dotV]) (by norm_num [subV, lengthSq, dotV]),
   calculateAngle_spec.2.2⟩

/-! ## Asset loading (frontend/src/components/3d/ModelLoader.tsx) -/

/-- Splitting a character list at every dot, the semantics of the JS
expression url.split with separator dot. The result list is never
empty: the empty string splits into one empty group. -/
def splitOnDot : List Char → List (List Char)
  | [] => [[]]
  | c :: rest =>
    match splitOnDot rest with
    | g :: gs => if c = '.' then [] :: g :: gs else (c :: g) :: gs
    | [] => [[c]]

/-- ASCII lower-casing of one character, the effect of toLowerCase on
the extensions considered here. -/
def lowerChar (c : Char) : Char :=
  if 'A' ≤ c ∧ c ≤ 'Z' then Char.ofNat (c.toNat + 32) else c

/-- File extension resolution of ModelLoader.tsx line 31:
modelUrl.split at dots, pop the last group, lower-case it. -/
def fileExtension (modelUrl : String) : String :=
  String.mk (((splitOnDot modelUrl.data).getLastD []).map lowerChar)

/-- Loader failures. The source throws a plain Error; the unsupported
default branch carries the unrecognized extension, loader rejections
carry the network message. -/
inductive LoadError where
  | unsupportedFormat (ext : String)
  | networkFailure (msg : String)
deriving DecidableEq

/-- Result of a decode path: a GLTF scene, an OBJ group, or the group
wrapping the mesh built from a PLY geometry. -/
inductive LoadedModel where
  | gltfScene (data : String)
  | objGroup (data : String)
  | plyMeshGroup (data : String)
deriving DecidableEq

/-- Dispatch of loadModel, ModelLoader.tsx lines 31-77. The fetch
argument abstracts the three-js loader callbacks; the second component
of the result counts network requests issued by the call. The default
branch throws before any loader is constructed or invoked. -/
def loadModel (fetch : String → Except String String) (modelUrl : String) :
    Except LoadError LoadedModel × Nat :=
  match fileExtension modelUrl with
  | "gltf" | "glb" =>
    (match fetch modelUrl with
     | .ok data => .ok (.gltfScene data)
     | .error e => .error (.networkFailure e), 1)
  | "obj" =>
    (match fetch modelUrl with
     | .ok data => .ok (.objGroup data)
     | .error e => .error (.networkFailure e), 1)
  | "ply" =>
    (match fetch modelUrl with
     | .ok data => .ok (.plyMeshGroup data)
     | .error e => .error (.networkFailure e), 1)
  | ext => (.error (.unsupportedFormat ext), 0)

/-- C6: a url whose extension is not ply, obj, gltf or glb fails with
the unsupported-format error and issues no network request. -/
theorem loadModel_unsupported_no_fetch (fetch : String → Except String String)
    (modelUrl : String)
    (h : fileExtension modelUrl ∉ (["ply", "obj", "gltf", "glb"] : List String)) :
    loadModel fetch modelUrl = (.error (.unsupportedFormat (fileExtension modelUrl)), 0) := by
  unfold loadModel
  split <;> simp_all

/-- Witness for loadModel_unsupported_no_fetch on a concrete xyz url. -/
theorem loadModel_unsupported_no_fetch_witness :
    fileExtension "https://x/model.xyz" ∉ (["ply", "obj", "gltf", "glb"] : List String) ∧
    loadModel (fun _ => .ok "data") "https://x/model.xyz" =
      (.error (.unsupportedFormat (fileExtension "https://x/model.xyz")), 0) :=
  ⟨by decide, loadModel_unsupported_no_fetch _ _ (by decide)⟩

/-- Component state of ModelLoader: the model, loading and error
useState hooks. Loaded groups are abstracted by numeric handles. -/
structure LoaderState where
  model : Option Nat
  loading : Bool
  error : Option String
deriving DecidableEq

/-- One event of the loading effect. start models the effect body
running for a new modelUrl (setLoading true and setError null, lines
23-24); resolveOk models the success path of the async closure (lines
80-83: setModel then setLoading false) and resolveErr its catch block
(lines 85-90). The source closure installs whatever it resolved with:
it consults no generation token and does not compare the url against
the latest started load before calling setModel. -/
inductive LoadEvent where
  | start (modelUrl : String)
  | resolveOk (modelUrl : String) (loadedModel : Nat)
  | resolveErr (modelUrl : String) (errorMessage : String)
deriving DecidableEq

def applyLoadEvent (s : LoaderState) (e : LoadEvent) : LoaderState :=
  match e with
  | .start _ => { s with loading := true, error := none }
  | .resolveOk _ m => { s with model := some m, loading := false }
  | .resolveErr _ msg => { s with error := some msg, loading := false }

/-- Initial hook state: model null, loading true, error null. -/
def initialLoaderState : LoaderState := ⟨none, true, none⟩

def runLoader (events : List LoadEvent) : LoaderState :=
  events.foldl applyLoadEvent initialLoaderState

/-- Interleaving from claim C1: load A starts, load B starts before A
resolves, B resolves first with model 2, A resolves last with model 1. -/
def staleTrace : List LoadEvent :=
  [.start "a.ply", .start "b.ply", .resolveOk "b.ply" 2, .resolveOk "a.ply" 1]

/-- C1 fails on the code: after the interleaving where the superseded
load A resolves last, the displayed model is the one of A, not the one
of the most recent load B. -/
theorem runLoader_stale_overwrite :
    (runLoader staleTrace).model = some 1 ∧ (runLoader staleTrace).model ≠ some 2 := by
  constructor
  · rfl
  · intro h
    simp [runLoader, staleTrace, applyLoadEvent, initialLoaderState] at h

/-! ## Post-processing (processModel, ModelLoader.tsx lines 97-132) -/

/-- Rational coordinates for the bounding-box computation. -/
abbrev Vec3q : Type := ℚ × ℚ × ℚ

def vaddQ (p q : Vec3q) : Vec3q := (p.1 + q.1, p.2.1 + q.2.1, p.2.2 + q.2.2)

def vsubQ (p q : Vec3q) : Vec3q := (p.1 - q.1, p.2.1 - q.2.1, p.2.2 - q.2.2)

def vsmulQ (c : ℚ) (p : Vec3q) : Vec3q := (c * p.1, c * p.2.1, c * p.2.2)

/-- The group passed to processModel: the bounding box of its child
geometry in group-local coordinates, and its own position and uniform
scale. The three-js object matrix applies scale before translation, so
a local point p maps to scale * p + position. -/
structure Object3D where
  geomMin : Vec3q
  geomMax : Vec3q
  position : Vec3q
  scale : ℚ

/-- Minimum corner of the world bounding box computed by
new THREE.Box3().setFromObject(model), for nonnegative scale. -/
def worldMin (o : Object3D) : Vec3q := vaddQ (vsmulQ o.scale o.geomMin) o.position

/-- Maximum corner of the same world bounding box. -/
def worldMax (o : Object3D) : Vec3q := vaddQ (vsmulQ o.scale o.geomMax) o.position

/-- Box3.getCenter: midpoint of the two corners. -/
def boxCenter (mn mx : Vec3q) : Vec3q := vsmulQ (1 / 2) (vaddQ mn mx)

/-- Box3.getSize: componentwise difference of the corners. -/
def boxSize (mn mx : Vec3q) : Vec3q := vsubQ mx mn

/-- Math.max of the three size components, line 107. -/
def maxDimension (size : Vec3q) : ℚ := max size.1 (max size.2.1 size.2.2)

/-- processModel, lines 97-109: compute the world bounding box, its
center and size, subtract the center from the group position, then
overwrite the group scale with 5 / maxSize. The material traversal of
lines 112-131 does not touch the transform and is not modelled. -/
def processModel (o : Object3D) : Object3D :=
  let mn := worldMin o
  let mx := worldMax o
  let center := boxCenter mn mx
  let size := boxSize mn mx
  let maxSize := maxDimension size
  let scale := 5 / maxSize
  { o with position := vsubQ o.position center, scale := scale }

/-- A fresh group (position zero, scale one) whose geometry bounding
box is the cube from 9 to 11 on every axis. -/
def sampleObject : Object3D := ⟨(9, 9, 9), (11, 11, 11), (0, 0, 0), 1⟩

/-- C3 fails on the code: the position is centered before the scale is
overwritten, and the translation is not scaled by the object matrix,
so on sampleObject the processed bounding box has center (15,15,15)
rather than the origin, while its largest dimension is the expected 5. -/
theorem processModel_center_not_origin :
    boxCenter (worldMin (processModel sampleObject)) (worldMax (processModel sampleObject)) =
      (15, 15, 15) ∧
    ((15 : ℚ), (15 : ℚ), (15 : ℚ)) ≠ ((0 : ℚ), 0, 0) ∧
    maxDimension (boxSize (worldMin (processModel sampleObject))
      (worldMax (processModel sampleObject))) = 5 := by
  refine ⟨?_, by norm_num [Prod.ext_iff], ?_⟩ <;>
    norm_num [processModel, worldMin, worldMax, boxCenter, boxSize, maxDimension,
      vaddQ, vsubQ, vsmulQ, sampleObject, Prod.ext_iff]

/-! ## Measurement clicks (frontend/src/components/3d/MeasurementTools.tsx) -/

/-- Completed measurement as assembled in handleClick lines 35-42. The
id field of the source is a fresh random string and is not modelled. -/
structure Measurement where
  type : String
  points : List Vec3
  value : ℝ
  unit : String
  color : String

/-- The isActive and currentPoints state of MeasurementTools. -/
structure MeasState where
  isActive : Bool
  currentPoints : List Vec3

/-- handleClick, MeasurementTools.tsx lines 23-47. With fewer than two
points a click stores the hovered pick, if any; otherwise the click
emits the distance measurement over the first two stored points (the
source computes currentPoints[0].distanceTo(currentPoints[1]), the
same Euclidean value as calculateDistance) and clears the point list.
The onMeasurementAdd callback is taken as present. -/
noncomputable def handleClick (s : MeasState) (hoveredPoint : Option Vec3) :
    MeasState × Option Measurement :=
  if s.isActive = false then (s, none)
  else if s.currentPoints.length < 2 then
    match hoveredPoint with
    | some p => ({ s with currentPoints := s.currentPoints ++ [p] }, none)
    | none => (s, none)
  else
    match s.currentPoints with
    | p0 :: p1 :: _ =>
      ({ s with currentPoints := [] },
       some ⟨"distance", s.currentPoints, calculateDistance p0 p1, "m", "#ff0000"⟩)
    | _ => ({ s with currentPoints := [] }, none)

/-- Armed tool with no stored points. -/
def armedEmpty : MeasState := ⟨true, []⟩

/-- C4 fails on the code: two successful picks on the armed tool store
two points but emit no measurement; the emission only happens on a
later click. -/
theorem handleClick_second_pick_no_emit :
    ((handleClick ((handleClick armedEmpty (some (0, 0, 0))).1) (some (3, 4, 0))).2 = none) ∧
    ((handleClick ((handleClick armedEmpty (some (0, 0, 0))).1)
      (some (3, 4, 0))).1.currentPoints.length = 2) :=
  ⟨rfl, rfl⟩

/-- C4 amended: picks while fewer than two points are stored only
append the point; the measurement over the two stored points is
emitted by the next click after both are stored, whether or not that
click itself picks a point, and the point list then resets. -/
theorem handleClick_click_protocol :
    (∀ (pts : List Vec3) (h : Option Vec3),
      handleClick ⟨false, pts⟩ h = (⟨false, pts⟩, none)) ∧
    (∀ p : Vec3, handleClick ⟨true, []⟩ (some p) = (⟨true, [p]⟩, none)) ∧
    (∀ p q : Vec3, handleClick ⟨true, [p]⟩ (some q) = (⟨true, [p, q]⟩, none)) ∧
    (∀ (p q : Vec3) (h : Option Vec3), handleClick ⟨true, [p, q]⟩ h =
      (⟨true, []⟩, some ⟨"distance", [p, q], calculateDistance p q, "m", "#ff0000"⟩)) :=
  ⟨fun _ _ => rfl, fun _ => rfl, fun _ _ => rfl, fun _ _ _ => rfl⟩

/-! ## Annotation state updates (components/3d/AnnotationTools.tsx) -/

/-- Annotation record of types/index.ts: identity, world position,
text, color, visibility, shape tag and size. -/
structure Annotation where
  id : String
  position : Vec3q
  text : String
  color : String
  visible : Bool
  type : String
  size : ℚ
deriving DecidableEq

/-- deleteAnnotation, lines 39-41: keep every annotation whose id
differs from the given one. -/
def deleteAnnotation (l : List Annotation) (id : String) : List Annotation :=
  l.filter (fun a => decide (a.id ≠ id))

/-- toggleAnnotationVisibility, lines 43-47: flip the visible flag of
annotations with the given id, spreading all other fields. -/
def toggleAnnotationVisibility (l : List Annotation) (id : String) : List Annotation :=
  l.map (fun a => if a.id = id then { a with visible := !a.visible } else a)

/-- C9: deleting an id that no annotation carries returns the list
unchanged, and deletion by identity is idempotent. -/
theorem deleteAnnotation_missing_id_noop :
    (∀ (l : List Annotation) (id : String), id ∉ l.map (fun a => a.id) →
      deleteAnnotation l id = l) ∧
    (∀ (l : List Annotation) (id : String),
      deleteAnnotation ( deleteAnnotation l id) id = deleteAnnotation l id) := by
  constructor
  · intro l id h
    induction l with
    | nil => rfl
    | cons a t ih =>
      simp only [List.map_cons, List.mem_cons] at h
      push_neg at h
      obtain ⟨h1, h2⟩ := h
      unfold deleteAnnotation at ih ⊢
      rw [List.filter_cons, if_pos (by simpa using Ne.symm h1)]
      rw [ih h2]
  · intro l id
    unfold deleteAnnotation
    induction l with
    | nil => rfl
    | cons a t ih =>
      by_cases h : a.id = id
      · simp [List.filter_cons, h, ih]
      · simp [List.filter_cons, h, ih]

/-- Witness for deleteAnnotation_missing_id_noop on a singleton list
and an absent id. -/
theorem deleteAnnotation_missing_id_noop_witness :
    ("zz" ∉ ([⟨"a1", (0, 0, 0), "n", "#ff6b6b", true, "point", 1⟩] :
        List Annotation).map (fun a => a.id)) ∧
    deleteAnnotation [⟨"a1", (0, 0, 0), "n", "#ff6b6b", true, "point", 1⟩] "zz" =
      [⟨"a1", (0, 0, 0), "n", "#ff6b6b", true, "point", 1⟩] ∧
    deleteAnnotation
        ( deleteAnnotation [⟨"a1", (0, 0, 0), "n", "#ff6b6b", true, "point", 1⟩] "zz") "zz" =
      deleteAnnotation [⟨"a1", (0, 0, 0), "n", "#ff6b6b", true, "point", 1⟩] "zz" :=
  ⟨by decide,
   deleteAnnotation_missing_id_noop.1 _ "zz" (by decide),
   deleteAnnotation_missing_id_noop.2 _ "zz"⟩

/-- C10: toggling visibility twice with one id restores the list, and
a single toggle keeps every field except the visible flag, which flips
exactly on the annotations carrying the id. -/
theorem toggleAnnotationVisibility_involution :
    (∀ (l : List Annotation) (id : String),
      toggleAnnotationVisibility ( toggleAnnotationVisibility l id) id = l) ∧
    (∀ (l : List Annotation) (id : String),
      (toggleAnnotationVisibility l id).map
          (fun a => (a.id, a.position, a.text, a.color, a.type, a.size)) =
        l.map (fun a => (a.id, a.position, a.text, a.color, a.type, a.size))) ∧
    (∀ (l : List Annotation) (id : String),
      (toggleAnnotationVisibility l id).map (fun a => a.visible) =
        l.map (fun a => if a.id = id then !a.visible else a.visible)) := by
  refine ⟨?_, ?_, ?_⟩ <;> intro l id <;>
    unfold toggleAnnotationVisibility <;> rw [List.map_map]
  · have hfun : ((fun a : Annotation =>
        if a.id = id then { a with visible := !a.visible } else a) ∘
        (fun a => if a.id = id then { a with visible := !a.visible } else a)) =
        (fun a => a) := by
      funext a
      simp only [Function.comp_apply]
      by_cases h : a.id = id
      · rw [if_pos h, if_pos h, Bool.not_not]
      · rw [if_neg h, if_neg h]
    rw [hfun]
    exact List.map_id' l
  · congr 1
    funext a
    by_cases h : a.id = id <;> simp [Function.comp, h]
  · congr 1
    funext a
    by_cases h : a.id = id <;> simp [Function.comp, h]

/-! ## Task polling (frontend/src/App.tsx, pollTaskStatus lines 25-64) -/

/-- Task status union of types/index.ts. -/
inductive TaskStatus where
  | pending
  | processing
  | completed
  | failed
deriving DecidableEq

/-- The currentTask record as far as the poll touches it. The id field
stands for the fields the spread keeps unchanged (files, createdAt,
method are carried the same way). -/
structure AppTask where
  id : String
  status : TaskStatus
  progress : ℚ
  message : String
deriving DecidableEq

/-- App component state read and written by the poll: the currentTask,
the result (modelled by its model url) and the active tab. -/
structure PollState where
  currentTask : Option AppTask
  result : Option String
  activeTab : String
deriving DecidableEq

/-- Outcome of one api.getTaskStatus call: a successful response body,
or the catch case (transport error, or success false, which the
source turns into a thrown Error). -/
inductive PollOutcome where
  | ok (status : TaskStatus) (progress : ℚ) (message : String) (result : Option String)
  | err (message : String)

/-- One iteration of poll inside pollTaskStatus. On a response the
task is updated with status, progress and message; completed with a
result stores the result, switches to the view tab and stops; failed
stops; otherwise another poll is scheduled (setTimeout poll 2000).
The catch block sets the task to failed with the error message and
schedules nothing. The Bool reports whether a next poll is scheduled. -/
def pollStep (s : PollState) (o : PollOutcome) : PollState × Bool :=
  match o with
  | .ok st prog msg res =>
    let s1 := { s with currentTask :=
      s.currentTask.map (fun t => { t with status := st, progress := prog, message := msg }) }
    if st = .completed ∧ res.isSome then
      ({ s1 with result := res, activeTab := "view" }, false)
    else if st = .failed then (s1, false)
    else (s1, true)
  | .err msg =>
    ({ s with currentTask :=
      s.currentTask.map (fun t => { t with status := .failed, message := msg }) }, false)

/-- A session with a processing task being polled. -/
def pollingState : PollState := ⟨some ⟨"t1", .processing, 40, "运行中"⟩, none, "process"⟩

/-- C2 fails on the code: a single transport error during a poll
immediately transitions the task to failed and schedules no further
poll, instead of retrying. -/
theorem pollStep_error_fails_task :
    ((pollStep pollingState (.err "Failed to fetch")).1.currentTask.map
      (fun t => t.status)) = some .failed ∧
    (pollStep pollingState (.err "Failed to fetch")).2 = false :=
  ⟨rfl, rfl⟩

/-- C2 amended: on a transport error the poll marks the task failed
with the error message, leaving progress and the rest of the state
alone, and stops polling at once; successful polls reporting pending
or processing keep polling. -/
theorem pollStep_error_behavior :
    (∀ (t : AppTask) (r : Option String) (tab e : String),
      pollStep ⟨some t, r, tab⟩ (.err e) =
        (⟨some { t with status := .failed, message := e }, r, tab⟩, false)) ∧
    (∀ (s : PollState) (prog : ℚ) (msg : String) (res : Option String),
      (pollStep s (.ok .processing prog msg res)).2 = true) ∧
    (∀ (s : PollState) (prog : ℚ) (msg : String) (res : Option String),
      (pollStep s (.ok .pending prog msg res)).2 = true) :=
  ⟨fun _ _ _ _ => rfl, fun _ _ _ _ => rfl, fun _ _ _ _ => rfl⟩

/-! ## Task restart (frontend/src/hooks/useFileUpload.ts lines 320-343) -/

/-- Task record of the useReconstruction hook, with the fields the
restart update can touch. The spread also keeps files, createdAt and
completedAt; the result field is the stored descriptor, modelled by
its model url. -/
structure RecTask where
  id : String
  status : TaskStatus
  progress : ℚ
  message : String
  result : Option String
deriving DecidableEq

/-- Message written by the restart update, line 333. -/
def restartMessage : String := "任务重新开始..."

/-- The setTasks update of restartTask, lines 331-335: the matching
task gets status pending, progress 0 and the restart message; all
remaining fields are spread unchanged. -/
def restartTaskUpdate (tasks : List RecTask) (taskId : String) : List RecTask :=
  tasks.map (fun t => if t.id = taskId then
    { t with status := .pending, progress := 0, message := restartMessage } else t)

/-- A completed task holding a result descriptor. -/
def completedTask : RecTask := ⟨"t1", .completed, 100, "完成", some "model.ply"⟩

/-- C5 fails on the code: restarting a completed task resets status,
progress and message but leaves the previous result descriptor in
place instead of clearing it. -/
theorem restartTaskUpdate_keeps_result :
    (restartTaskUpdate [completedTask] "t1").map (fun t => t.result) = [some "model.ply"] ∧
    (restartTaskUpdate [completedTask] "t1").map (fun t => t.result) ≠ [none] :=
  ⟨rfl, by decide⟩

/-- C5 amended: the restart update resets status, progress and message
of the matching task and keeps every other task unchanged, while the
result field of every task, the matching one included, is retained. -/
theorem restartTaskUpdate_resets_fields :
    (∀ (tasks : List RecTask) (taskId : String),
      (restartTaskUpdate tasks taskId).map (fun t => t.result) =
        tasks.map (fun t => t.result)) ∧
    (∀ (tasks : List RecTask) (taskId : String),
      (restartTaskUpdate tasks taskId).map (fun t => (t.id, t.status, t.progress, t.message)) =
        tasks.map (fun t => if t.id = taskId
          then (t.id, TaskStatus.pending, (0 : ℚ), restartMessage)
          else (t.id, t.status, t.progress, t.message))) := by
  constructor <;> intro tasks taskId <;>
    unfold restartTaskUpdate <;> rw [List.map_map] <;> congr 1 <;> funext t <;>
    by_cases h : t.id = taskId <;> simp [Function.comp, h]
